import Mathlib

/-!
Verification of the flexi deep-research orchestration runtime.

The definitions below are a shallow embedding of the Python sources:
  * `src/flexi/core/state.py`        — shared-state reducers,
  * `src/flexi/agents/graph_builder.py` — context assembly, supervisor
    decision parsing, the star-topology router, per-turn state deltas,
  * `src/flexi/core/mcp_client.py`   — the stdio JSON-RPC client.

Python strings are modelled as Lean `String` where only concatenation,
equality and length matter, and as `List Char` where character-level
scanning is embedded.  Python `dict[str, str]` values are modelled as
association lists, `None`-able values as `Option`.
-/

set_option maxRecDepth 8192

namespace Flexi

/-! ## Shared-state reducers (src/flexi/core/state.py) -/

/-- `increment_counter` (state.py, lines 21-24): reducer for the
`completed_branches` barrier counter.  `-1` acts as a reset signal;
otherwise the two sides are added.  For `Int` arguments Python's
`(x or 0)` is the identity (`0 or 0 == 0`), so it is omitted. -/
def increment_counter (left right : Int) : Int :=
  if right = -1 then 0 else left + right

/-- `reduce_max_iterations` (state.py, lines 32-34): reducer for
`iteration_count`, keeps the maximum value seen. -/
def reduce_max_iterations (left right : Int) : Int :=
  max left right

/-- `reduce_current_agent` (state.py, lines 27-29): newest non-empty
value wins, else keep previous. -/
def reduce_current_agent (left : Option String) (right : String) : Option String :=
  if right = "" then left else some right

/-- Lookup in an association-list model of a Python dict. -/
def alookup (k : String) : List (String × String) → Option String
  | [] => none
  | kv :: t => if kv.1 = k then some kv.2 else alookup k t

/-- `merge_findings` (state.py, lines 7-11): `left.copy()` then
`update(right)` — left-hand keys keep their position but take the
right-hand value on conflict, and fresh right-hand keys are appended. -/
def merge_findings (left right : List (String × String)) : List (String × String) :=
  (left.map fun kv =>
    match alookup kv.1 right with
    | some v => (kv.1, v)
    | none => kv) ++
  right.filter fun kv => alookup kv.1 left = none

/-! ## Message log (langchain message objects as used by graph_builder.py) -/

/-- One turn of the shared conversation log: the four `BaseMessage`
kinds that `graph_builder.py` distinguishes.  `ai` carries the optional
`name` speaker tag used for per-role filtering. -/
inductive Msg where
  | system (content : String)
  | human (content : String)
  | ai (content : String) (name : Option String)
  | tool (content : String)
  deriving DecidableEq, Repr

/-- The shared `ResearchState` (state.py, lines 37-53) restricted to the
fields the orchestration logic reads.  Fields read through
`state.get(key, default)` in Python are `Option`s here. -/
structure RState where
  research_question : String
  messages : List Msg
  current_agent : Option String
  supervisor_decision : Option String
  findings : List (String × String)
  iteration_count : Option Int
  max_iterations : Option Int
  deriving Repr

/-! ## Star-topology router (graph_builder.py, lines 496-502) -/

/-- Target of a conditional edge: the terminal `END` node or a named
subordinate node. -/
inductive RouteTarget where
  | stop
  | node (name : String)
  deriving DecidableEq, Repr

/-- `router` (graph_builder.py, lines 496-502): hard budget stop first
(`iteration_count >= max_iterations`, defaults 0 and 15), then the
parsed `supervisor_decision`; Python's `not decision` is true for both
`None` and the empty string. -/
def router (s : RState) : RouteTarget :=
  if s.iteration_count.getD 0 ≥ s.max_iterations.getD 15 then .stop
  else
    match s.supervisor_decision with
    | none => .stop
    | some d => if d = "END" ∨ d = "" then .stop else .node d

/-! ## Parallel join barrier (C1)

Modelled from the spec: the join/barrier rule that gates a subordinate
branch's exit edge is part of the parallel fan-out revision of
`graph_builder.py` which is not present in this snapshot — only its
state fields (`active_branches`, `completed_branches` in state.py,
lines 52-53) and its test (`tests/unit/test_parallel_logic.py`,
`test_barrier_logic`) are.  Spec §4.1: "if `active_branch_count <= 1`
(no fan-out in effect) always return to supervisor; otherwise return to
supervisor only when `completed_branch_count >= active_branch_count`,
else the branch's edge is a no-op (the run waits for siblings)". -/

/-- Where a subordinate branch's exit edge leads: back to the
supervisor, or nowhere (the no-op wait while siblings finish). -/
inductive JoinTarget where
  | supervisor
  | wait
  deriving DecidableEq, Repr

/-- Modelled from the spec: the join/barrier routing rule (spec §4.1 and
§8), absent from this snapshot's `graph_builder.py`. -/
def join_router (active completed : Int) : JoinTarget :=
  if active ≤ 1 ∨ completed ≥ active then .supervisor else .wait

/-! ## Findings formatting (graph_builder.py, lines 50-64) -/

/-- The per-entry text `_format_findings` appends for one
`(role, content)` pair: `"\n[role]:\n" + truncated + "\n"`, where
content longer than 500 characters is cut to its first 500 plus
`"..."`. -/
def format_entry (kv : String × String) : String :=
  "\n[" ++ kv.1 ++ "]:\n" ++
    (if kv.2.length > 500 then kv.2.take 500 ++ "..." else kv.2) ++ "\n"

/-- `_format_findings` (graph_builder.py, lines 50-64): the fixed
placeholder for an empty findings map, else the `formatted += ...`
accumulation over entries in map order. -/
def format_findings (findings : List (String × String)) : String :=
  if findings = [] then "(No previous findings yet)"
  else findings.foldl (fun acc kv => acc ++ format_entry kv) ""

/-- Plain concatenation of a list of strings (used to characterise the
`formatted += ...` fold). -/
def concatAll : List String → String
  | [] => ""
  | s :: t => s ++ concatAll t

/-! ## Agent context assembly (graph_builder.py, lines 144-195) -/

/-- Inner loop of STEP 2.5 (graph_builder.py, lines 149-165): walk the
shared log with the `is_my_msg` flag; system turns are skipped, an
assistant turn is kept iff its `name` tag equals this agent's name (and
sets the flag), a tool turn is kept iff the flag is set, human turns are
skipped and leave the flag unchanged. -/
def my_history_go (agent_name : String) (flag : Bool) : List Msg → List Msg
  | [] => []
  | .system _ :: t => my_history_go agent_name flag t
  | .human _ :: t => my_history_go agent_name flag t
  | .ai c n :: t =>
    if n = some agent_name then .ai c n :: my_history_go agent_name true t
    else my_history_go agent_name false t
  | .tool c :: t =>
    if flag then .tool c :: my_history_go agent_name flag t
    else my_history_go agent_name flag t

/-- STEP 2.5 (graph_builder.py, lines 149-165): restore only this
agent's own prior turns from the shared log (`is_my_msg` starts false). -/
def my_history (agent_name : String) (msgs : List Msg) : List Msg :=
  my_history_go agent_name false msgs

/-- Specification-side speaker attribution, for comparison with
`my_history`: each turn of the log is paired with its author — an
assistant turn is its own author (via its `name` tag), and any other
turn is attributed to the most recent assistant turn before it. -/
def speaker_tags (cur : Option String) : List Msg → List (Msg × Option String)
  | [] => []
  | .ai c n :: t => (.ai c n, n) :: speaker_tags n t
  | m :: t => (m, cur) :: speaker_tags cur t

/-- The message kinds that STEP 2.5 may restore into an agent's context
(assistant turns and tool-result turns). -/
def is_restorable : Msg → Bool
  | .ai _ _ => true
  | .tool _ => true
  | _ => false

/-- STEP 3 (graph_builder.py, lines 168-171): the findings visible to an
agent are those whose key is in its declared `context_dependencies`. -/
def relevant_findings (deps : List String) (findings : List (String × String)) :
    List (String × String) :=
  findings.filter fun kv => decide (kv.1 ∈ deps)

/-- `_get_last_supervisor_instruction` (graph_builder.py, lines 67-80):
content of the last human turn in the log, if any. -/
def find_last_human : List Msg → Option String
  | [] => none
  | m :: t =>
    match find_last_human t with
    | some c => some c
    | none => match m with | .human c => some c | _ => none

/-- STEP 5 (graph_builder.py, lines 188-193): the human task message —
research question plus the last supervisor instruction when the log is
non-empty and that instruction is non-empty (Python truthiness). -/
def task_content (s : RState) : String :=
  "RESEARCH QUESTION: " ++ s.research_question ++ "\n\n" ++
    (if s.messages ≠ [] then
      match find_last_human s.messages with
      | some ins => if ins = "" then "" else "SUPERVISOR'S INSTRUCTION: " ++ ins
      | none => ""
    else "")

/-- STEPs 1-5 of `agent_executor` (graph_builder.py, lines 144-195):
the full ordered turn sequence submitted for one agent turn.  The
system-prompt template processing of STEP 1 (settings-dependent) is
taken as the already-processed `sys_prompt` argument. -/
def assemble_agent_context (agent_name sys_prompt : String) (deps : List String)
    (s : RState) : List Msg :=
  [Msg.system sys_prompt] ++
  my_history agent_name s.messages ++
  (let rel := relevant_findings deps s.findings
   if rel ≠ [] then
     [Msg.ai ("CONTEXT FROM PRIOR AGENTS:\n" ++ format_findings rel) (some "ContextProvider")]
   else []) ++
  (match alookup agent_name s.findings with
   | some prior =>
     [Msg.ai ("Your previous work on this task (which may be incomplete):\n\n" ++ prior)
       (some agent_name)]
   | none => []) ++
  [Msg.human (task_content s)]

/-! ## Supervisor decision extraction in this snapshot
(graph_builder.py, lines 379-390) -/

/-- Python `\s` on the characters the runtime emits. -/
def isSpaceChar (c : Char) : Bool :=
  c = ' ' || c = '\t' || c = '\n' || c = '\r' || c = '\x0b' || c = '\x0c'

/-- Python `\w`: letters, digits and underscore. -/
def isWordChar (c : Char) : Bool :=
  c.isAlphanum || c = '_'

/-- Does `pat` occur as a contiguous run inside `s`? -/
def containsSub (pat : List Char) : List Char → Bool
  | [] => pat.isEmpty
  | c :: t => pat.isPrefixOf (c :: t) || containsSub pat t

/-- `re.search(r'NEXT:\s*(\w+)', content)` (graph_builder.py, line 383):
the captured word of the leftmost occurrence of `NEXT:` that is followed
— after optional whitespace — by at least one word character. -/
def scan_next_target : List Char → Option (List Char)
  | [] => none
  | c :: t =>
    if ("NEXT:".toList).isPrefixOf (c :: t) then
      let w := (((c :: t).drop 5).dropWhile isSpaceChar).takeWhile isWordChar
      if w.isEmpty then scan_next_target t else some w
    else scan_next_target t

/-- graph_builder.py, lines 382-387: the regex candidate validated
against the known subordinate set; an unknown candidate leaves the
decision unset. -/
def extract_next (content : List Char) (roles : List String) : Option String :=
  match scan_next_target content with
  | some w => if (String.mk w) ∈ roles then some (String.mk w) else none
  | none => none

/-- The literal token whose presence in the upper-cased reply forces
termination (graph_builder.py, line 389). -/
def finish_token : List Char :=
  "FINISH".toList

/-- graph_builder.py, lines 379-390: full decision extraction of this
snapshot's `supervisor_executor` — the validated `NEXT:` target, with
`FINISH` anywhere in the upper-cased reply forcing `END` when no target
was extracted. -/
def parse_supervisor_decision (content : List Char) (roles : List String) : Option String :=
  let n := extract_next content roles
  if containsSub finish_token (content.map Char.toUpper) && n.isNone then some "END"
  else n

/-! ## Per-turn state deltas (graph_builder.py, lines 284-290 and 392-397) -/

/-- One usage audit record (`stats_record`); the float-valued `duration`
and `cost` entries are outside the embedding. -/
structure StatsRec where
  agent : String
  model : String
  input_tokens : Int
  output_tokens : Int
  deriving DecidableEq, Repr

/-- A state delta as returned by a node: exactly the dictionary keys the
Python executor returns; `none` models an absent key (the field is left
untouched by the merge). -/
structure StateDelta where
  messages : List Msg
  findings : Option (List (String × String))
  current_agent : Option String
  supervisor_decision : Option (Option String)
  stats : List StatsRec
  iteration_count : Option Int
  max_iterations : Option Int
  deriving Repr

/-- The delta returned by `agent_executor` (graph_builder.py, lines
284-290): this turn's events, this agent's finding, and
`iteration_count = state.get("iteration_count", 0) + 1`. -/
def agent_delta (s : RState) (agent_name content : String) (turn_events : List Msg)
    (r : StatsRec) : StateDelta :=
  { messages := turn_events
    findings := some [(agent_name, content)]
    current_agent := some agent_name
    supervisor_decision := none
    stats := [r]
    iteration_count := some (s.iteration_count.getD 0 + 1)
    max_iterations := none }

/-- The delta returned by `supervisor_executor` (graph_builder.py, lines
392-397): the reply turn, the parsed decision, and the audit record —
no `iteration_count`, `findings` or `max_iterations` key. -/
def supervisor_delta (reply : String) (decision : Option String) (r : StatsRec) : StateDelta :=
  { messages := [.ai reply none]
    findings := none
    current_agent := some "supervisor"
    supervisor_decision := some decision
    stats := [r]
    iteration_count := none
    max_iterations := none }

/-- Merge a returned delta into the shared state through the declared
reducers (state.py, lines 37-53): messages concatenate, findings merge
last-write-wins, `current_agent` newest-non-empty-wins,
`supervisor_decision` overwrites, `iteration_count` keeps the maximum;
an absent key leaves the field unchanged. -/
def apply_delta (s : RState) (d : StateDelta) : RState :=
  { research_question := s.research_question
    messages := s.messages ++ d.messages
    current_agent :=
      match d.current_agent with
      | none => s.current_agent
      | some r => reduce_current_agent s.current_agent r
    supervisor_decision :=
      match d.supervisor_decision with
      | none => s.supervisor_decision
      | some v => v
    findings :=
      match d.findings with
      | none => s.findings
      | some f => merge_findings s.findings f
    iteration_count :=
      match d.iteration_count with
      | none => s.iteration_count
      | some v => some (reduce_max_iterations (s.iteration_count.getD 0) v)
    max_iterations :=
      match d.max_iterations with
      | none => s.max_iterations
      | some v => some v }

/-! ## Stdio JSON-RPC client (src/flexi/core/mcp_client.py) -/

/-- A queued JSON-RPC response as the reader thread deposits it:
optional `id`, optional `error`, optional `result` (payload abstracted
to its text). -/
structure MCPResponse where
  id : Option Int
  error : Option String
  result : Option String
  deriving DecidableEq, Repr

/-- The two failure modes of `send_request`: the 10-second bounded wait
expiring (`TimeoutError`, mcp_client.py line 134) and a JSON-RPC error
response (line 129). -/
inductive MCPFailure where
  | timeout (method : String)
  | mcpError (msg : String)
  deriving DecidableEq, Repr

/-- The polling loop of `send_request` (mcp_client.py, lines 124-134)
over the sequence of responses that arrive within the bounded wait: a
response with a non-matching id is discarded; a matching one returns
its result (default empty) or raises the JSON-RPC error; exhausting the
wait raises the timeout failure. -/
def poll_for_response (reqId : Int) (method : String) :
    List MCPResponse → Except MCPFailure String
  | [] => .error (.timeout method)
  | r :: rest =>
    if r.id = some reqId then
      match r.error with
      | some e => .error (.mcpError e)
      | none => .ok (r.result.getD "")
    else poll_for_response reqId method rest

/-- Client state protected by `self._lock`: the last assigned request
id. -/
structure ClientState where
  request_id : Int
  deriving DecidableEq, Repr

/-- `send_request` (mcp_client.py, lines 93-138), with the mutex-held
critical section modelled as one atomic step: increment and assign the
id, write the request line, then poll the arrived responses.  Returns
the successor client state, the id assigned to this request, and the
call's outcome. -/
def send_request (st : ClientState) (method : String) (queued : List MCPResponse) :
    ClientState × Int × Except MCPFailure String :=
  let newId := st.request_id + 1
  (⟨newId⟩, newId, poll_for_response newId method queued)

/-- Client state after `n` consecutive `send_request` calls. -/
def state_after_sends (st : ClientState) : Nat → ClientState
  | 0 => st
  | n + 1 => ⟨(state_after_sends st n).request_id + 1⟩

/-- The id assigned by the `(n+1)`-st `send_request` call (0-indexed
`n`). -/
def id_assigned_at (st : ClientState) (n : Nat) : Int :=
  (state_after_sends st n).request_id + 1

/-! ## Parallel-aware decision grammar (C2)

Modelled from the spec: the fan-out-capable decision parser of the
parallel revision of `supervisor_executor` is not present in this
snapshot of `graph_builder.py` — only its tests and an extracted copy
(`tests/unit/test_supervisor_parsing.py`, `mock_parse_decision`,
"Extracted parsing logic from graph_builder.py") are.  Spec §4.3: scan
the reply line by line, prefer the first `PARALLEL:` line, else the
first `NEXT:` line, else the first non-empty line; strip the routing
prefixes repeatedly; a top-level comma (not inside quotes) or an
explicit `PARALLEL:` prefix makes it a fan-out, split on top-level
commas; `role: "instruction"` segments keep their instruction, bare
known role names get the generic default instruction, unknown roles are
discarded; surviving tasks give decision PARALLEL, else single-role and
regex fallbacks. -/

/-- Strip characters satisfying `p` from both ends (Python `str.strip`). -/
def stripBy (p : Char → Bool) (s : List Char) : List Char :=
  ((s.dropWhile p).reverse.dropWhile p).reverse

/-- Upper-case a character list (Python `str.upper` on ASCII). -/
def upperList (s : List Char) : List Char :=
  s.map Char.toUpper

/-- Python `content.split("\n")`. -/
def split_lines : List Char → List (List Char)
  | [] => [[]]
  | c :: t =>
    if c = '\n' then [] :: split_lines t
    else
      match split_lines t with
      | [] => [[c]]
      | h :: r => (c :: h) :: r

/-- Modelled from the spec (§4.3): the stripped non-empty lines of the
reply. -/
def decision_lines (content : List Char) : List (List Char) :=
  ((split_lines content).map (stripBy isSpaceChar)).filter (fun l => !l.isEmpty)

/-- Modelled from the spec (§4.3): the line the decision is read from —
first `PARALLEL:` line (case-insensitive), else first `NEXT:` line,
else the first non-empty line (empty if none). -/
def pick_decision_line (content : List Char) : List Char :=
  let lines := decision_lines content
  match lines.find? (fun l => ("PARALLEL:".toList).isPrefixOf (upperList l)) with
  | some l => l
  | none =>
    match lines.find? (fun l => ("NEXT:".toList).isPrefixOf (upperList l)) with
    | some l => l
    | none => lines.headD []

/-- Modelled from the spec (§4.3): repeatedly strip leading `NEXT:` and
`PARALLEL:` tokens (handles the hybrid `NEXT: PARALLEL: ...` reply);
fuel-bounded, each step removes at least five characters. -/
def strip_route_tokens : Nat → List Char → List Char
  | 0, s => s
  | f + 1, s =>
    if ("NEXT:".toList).isPrefixOf (upperList s) then
      strip_route_tokens f (stripBy isSpaceChar (s.drop 5))
    else if ("PARALLEL:".toList).isPrefixOf (upperList s) then
      strip_route_tokens f (stripBy isSpaceChar (s.drop 9))
    else s

/-- Modelled from the spec (§4.3): split on top-level commas only — a
comma is top-level when the quote characters after it balance (an even
number of `"` up to the end of the line), so quoted instruction text is
never split. -/
def split_top_commas : List Char → List (List Char)
  | [] => [[]]
  | c :: t =>
    if c = ',' ∧ (t.count '"') % 2 = 0 then [] :: split_top_commas t
    else
      match split_top_commas t with
      | [] => [[c]]
      | h :: r => (c :: h) :: r

/-- One fan-out assignment: a subordinate role and its instruction. -/
structure Task where
  agent : String
  instruction : String
  deriving DecidableEq, Repr

/-- Modelled from the spec (§4.3): the generic default instruction a
bare role name receives (literal from the extracted copy in
tests/unit/test_supervisor_parsing.py). -/
def default_instruction : String :=
  "Proceed with assigned research task."

/-- Split a segment at its first colon, when it has one. -/
def split_first_colon : List Char → Option (List Char × List Char)
  | [] => none
  | c :: t =>
    if c = ':' then some ([], t)
    else
      match split_first_colon t with
      | none => none
      | some (a, b) => some (c :: a, b)

/-- Modelled from the spec (§4.3): one comma-separated segment —
`role: "instruction"` keeps the quoted instruction, a bare known role
name gets the default instruction, an unknown role is discarded (names
are stripped of whitespace and surrounding brackets, instructions of
whitespace and quotes). -/
def task_of_segment (roles : List String) (seg : List Char) : Option Task :=
  match split_first_colon seg with
  | some (namePart, instPart) =>
    let nm := stripBy (fun c => c == '[' || c == ']') (stripBy isSpaceChar namePart)
    let inst := stripBy (fun c => c == '\'')
      (stripBy (fun c => c == '"') (stripBy isSpaceChar instPart))
    if (String.mk nm) ∈ roles then some ⟨String.mk nm, String.mk inst⟩ else none
  | none =>
    let nm := stripBy (fun c => c == '[' || c == ']') (stripBy isSpaceChar seg)
    if (String.mk nm) ∈ roles then some ⟨String.mk nm, default_instruction⟩ else none

/-- Modelled from the spec (§4.3): the last-resort generic-token scan
`(?:NEXT:|PARALLEL:)?\s*(\w+)` (case-insensitive) across the decision
line: at the leftmost viable position, an optional routing prefix, then
optional whitespace, then a word. -/
def fallback_scan : List Char → Option (List Char)
  | [] => none
  | c :: t =>
    let s := c :: t
    let j := if ("NEXT:".toList).isPrefixOf (upperList s) then s.drop 5
             else if ("PARALLEL:".toList).isPrefixOf (upperList s) then s.drop 9
             else s
    let w1 := (j.dropWhile isSpaceChar).takeWhile isWordChar
    if !w1.isEmpty then some w1
    else
      let w2 := (s.dropWhile isSpaceChar).takeWhile isWordChar
      if !w2.isEmpty then some w2
      else fallback_scan t

/-- The structured output of the decision grammar: an optional routing
decision (`"PARALLEL"`, a role name, or none) and the fan-out task
list. -/
structure Decision where
  next_agent : Option String
  tasks : List Task
  deriving DecidableEq, Repr

/-- Modelled from the spec (§4.3): the single-role branch taken when no
fan-out task survives — the stripped line as a role name if known, else
the validated fallback scan. -/
def single_decision (parser_line decision_line : List Char) (roles : List String) :
    Option String :=
  if (String.mk parser_line) ∈ roles then some (String.mk parser_line)
  else
    match fallback_scan decision_line with
    | some w => if (String.mk w) ∈ roles then some (String.mk w) else none
    | none => none

/-- Modelled from the spec (§4.3): the fan-out-aware decision grammar
of the parallel revision of `supervisor_executor`, absent from this
snapshot of `graph_builder.py`. -/
def parse_decision (content : List Char) (roles : List String) : Decision :=
  let dline := pick_decision_line content
  let pline := strip_route_tokens dline.length dline
  let fanout := containsSub ("PARALLEL:".toList) (upperList dline)
    || decide (2 ≤ (split_top_commas pline).length)
  if fanout then
    let tasks := (split_top_commas pline).filterMap (task_of_segment roles)
    if tasks.isEmpty then { next_agent := single_decision pline dline roles, tasks := [] }
    else { next_agent := some "PARALLEL", tasks := tasks }
  else { next_agent := single_decision pline dline roles, tasks := [] }

/-! ## Reasoning pruning (C5)

Modelled from the spec: `_prune_reasoning` is imported from
`flexi.agents.graph_builder` by `tests/unit/test_pruning_logic.py` but
is absent from this snapshot of `graph_builder.py`.  Spec §4.4/§8: a
pruning step strips inline reasoning delimiters (several tag
spellings) from the final answer, tolerating an unterminated opening
tag by truncating at its first occurrence; absence of tags is the
identity transform. -/

/-- Index of the first occurrence of `pat` as a contiguous run in `s`. -/
def findSub (pat : List Char) : List Char → Option Nat
  | [] => if pat.isEmpty then some 0 else none
  | c :: t =>
    if pat.isPrefixOf (c :: t) then some 0
    else (findSub pat t).map (· + 1)

/-- Modelled from the spec (§4.4): remove every closed
`open ... close` block for one tag spelling and truncate at an
unterminated opening tag; fuel-bounded, each removed block consumes at
least the opening tag. -/
def remove_blocks : Nat → List Char → List Char → List Char → List Char
  | 0, _, _, s => s
  | f + 1, o, c, s =>
    match findSub o s with
    | none => s
    | some i =>
      let rest := s.drop (i + o.length)
      match findSub c rest with
      | none => s.take i
      | some j => s.take i ++ remove_blocks f o c (rest.drop (j + c.length))

/-- Modelled from the spec (§4.4): the recognised reasoning-delimiter
spellings, longest first so that `<thinking>` text is never mistaken
for a dangling `<think>` tag. -/
def reasoning_tags : List (List Char × List Char) :=
  [("<thinking>".toList, "</thinking>".toList),
   ("<think>".toList, "</think>".toList),
   ("[thought]".toList, "[/thought]".toList)]

/-- Modelled from the spec (§4.4): `_prune_reasoning`, applied to the
visible final answer before it is stored as a finding. -/
def prune_reasoning (s : List Char) : List Char :=
  reasoning_tags.foldl (fun acc oc => remove_blocks (acc.length + 1) oc.1 oc.2 acc) s

/-! ## Helper lemmas -/

/-- The `formatted += ...` fold is concatenation of the per-entry
texts. -/
theorem foldl_format_entries (fs : List (String × String)) (acc : String) :
    fs.foldl (fun a kv => a ++ format_entry kv) acc =
      acc ++ concatAll (fs.map format_entry) := by
  induction fs generalizing acc with
  | nil => simp [concatAll]
  | cons kv t ih => simp [concatAll, ih, String.append_assoc]

/-- `state_after_sends` advances the id counter linearly. -/
theorem state_after_sends_request_id (st : ClientState) (n : Nat) :
    (state_after_sends st n).request_id = st.request_id + n := by
  induction n with
  | zero => simp [state_after_sends]
  | succ k ih =>
    simp [state_after_sends, ih]
    omega

/-- A successful poll result comes from a queued response whose id is
the request's own id. -/
theorem poll_ok_means_matching (reqId : Int) (method : String)
    (q : List MCPResponse) (v : String)
    (h : poll_for_response reqId method q = .ok v) :
    ∃ r ∈ q, r.id = some reqId ∧ v = r.result.getD "" := by
  induction q with
  | nil => simp [poll_for_response] at h
  | cons r rest ih =>
    by_cases hid : r.id = some reqId
    · refine ⟨r, by simp, hid, ?_⟩
      cases herr : r.error with
      | some e => simp [poll_for_response, hid, herr] at h
      | none =>
        simp [poll_for_response, hid, herr] at h
        exact h.symm
    · simp only [poll_for_response, hid, if_false, if_neg hid] at h
      obtain ⟨r', hm, hi, hv⟩ := ih h
      exact ⟨r', by simp [hm], hi, hv⟩

/-- Polling a queue with no matching id raises the timeout failure. -/
theorem poll_no_match_times_out (reqId : Int) (method : String)
    (q : List MCPResponse)
    (h : ∀ r ∈ q, r.id ≠ some reqId) :
    poll_for_response reqId method q = .error (.timeout method) := by
  induction q with
  | nil => rfl
  | cons r rest ih =>
    have hr : r.id ≠ some reqId := h r (by simp)
    simp only [poll_for_response, if_neg hr]
    exact ih fun r' hm => h r' (by simp [hm])

/-! ## Claim theorems -/

/-- C7: applying the completed-branch reducer `increment_counter` with
right-hand value `-1` yields `0` for every integer left-hand value
(reset semantics), and with any non-negative right-hand value it yields
the sum of the two values. -/
theorem completed_branch_reducer_reset :
    (∀ l : Int, increment_counter l (-1) = 0) ∧
    (∀ l r : Int, 0 ≤ r → increment_counter l r = l + r) := by
  constructor
  · intro l
    simp [increment_counter]
  · intro l r h
    have hne : r ≠ -1 := by omega
    simp [increment_counter, hne]

/-- Witness for C7 at concrete inputs. -/
theorem completed_branch_reducer_reset_witness :
    increment_counter 6 (-1) = 0 ∧ increment_counter 5 1 = 5 + 1 :=
  ⟨completed_branch_reducer_reset.1 6,
   completed_branch_reducer_reset.2 5 1 (by decide)⟩

/-- C1: the join/barrier rule after a subordinate branch turn — with
`active_branch_count <= 1` control always returns to the supervisor;
with `active_branch_count = N > 1` it returns to the supervisor iff
`completed_branch_count >= N`, else the branch's exit edge is the
no-op wait. -/
theorem join_barrier_gates_return (a c : Int) :
    (a ≤ 1 → join_router a c = JoinTarget.supervisor) ∧
    (1 < a → (join_router a c = JoinTarget.supervisor ↔ a ≤ c)) ∧
    (1 < a → c < a → join_router a c = JoinTarget.wait) := by
  refine ⟨fun h => by simp [join_router, h], fun h => ?_, fun h h2 => ?_⟩
  · unfold join_router
    split_ifs with hif
    · exact iff_of_true rfl (by omega)
    · exact iff_of_false (by simp) (by omega)
  · have hn : ¬(a ≤ 1 ∨ c ≥ a) := by omega
    simp [join_router, hn]

/-- Witness for C1 at concrete branch counters. -/
theorem join_barrier_gates_return_witness :
    join_router 0 5 = JoinTarget.supervisor ∧
    (join_router 3 3 = JoinTarget.supervisor ↔ (3 : Int) ≤ 3) ∧
    join_router 3 1 = JoinTarget.wait :=
  ⟨(join_barrier_gates_return 0 5).1 (by decide),
   (join_barrier_gates_return 3 3).2.1 (by decide),
   (join_barrier_gates_return 3 1).2.2 (by decide) (by decide)⟩

/-- C3: once `iteration_count >= max_iterations` the star-topology
router returns END, whatever `supervisor_decision` holds — no
subordinate is dispatched after the budget is exhausted. -/
theorem router_hard_stop_on_budget (s : RState) (d : Option String)
    (h : s.iteration_count.getD 0 ≥ s.max_iterations.getD 15) :
    router { s with supervisor_decision := d } = RouteTarget.stop := by
  simp [router, h]

/-- Witness for C3 at a concrete exhausted state. -/
theorem router_hard_stop_on_budget_witness :
    router { research_question := "q", messages := [], current_agent := none,
             supervisor_decision := some "analyst", findings := [],
             iteration_count := some 15, max_iterations := some 15 } = RouteTarget.stop :=
  router_hard_stop_on_budget
    ⟨"q", [], none, none, [], some 15, some 15⟩ (some "analyst") (by decide)

/-- C10: `_format_findings` renders the empty map as the fixed
placeholder, renders a non-empty map as the concatenation of one entry
per key (complete in keys), and each entry keeps content of at most 500
characters verbatim while cutting longer content to its first 500
characters plus `"..."`. -/
theorem findings_format_truncation :
    (format_findings [] = "(No previous findings yet)") ∧
    (∀ fs : List (String × String), fs ≠ [] →
      format_findings fs = concatAll (fs.map format_entry)) ∧
    (∀ r c : String, 500 < c.length →
      format_entry (r, c) = "\n[" ++ r ++ "]:\n" ++ (c.take 500 ++ "...") ++ "\n") ∧
    (∀ r c : String, c.length ≤ 500 →
      format_entry (r, c) = "\n[" ++ r ++ "]:\n" ++ c ++ "\n") := by
  refine ⟨rfl, fun fs h => ?_, fun r c h => ?_, fun r c h => ?_⟩
  · simp [format_findings, h, foldl_format_entries]
  · simp [format_entry, h]
  · have hn : ¬(500 < c.length) := by omega
    simp [format_entry, hn]

/-- Witness for C10 at concrete findings. -/
theorem findings_format_truncation_witness :
    format_findings [("r", "short")] = concatAll ([("r", "short")].map format_entry) ∧
    format_entry ("r", "short") = "\n[" ++ "r" ++ "]:\n" ++ "short" ++ "\n" ∧
    format_entry ("r", String.mk (List.replicate 501 'a')) =
      "\n[" ++ "r" ++ "]:\n" ++
        ((String.mk (List.replicate 501 'a')).take 500 ++ "...") ++ "\n" :=
  ⟨findings_format_truncation.2.1 [("r", "short")] (by decide),
   findings_format_truncation.2.2.2 "r" "short" (by decide),
   findings_format_truncation.2.2.1 "r" (String.mk (List.replicate 501 'a')) (by decide)⟩

/-- C9: an agent turn's delta carries `iteration_count` equal to the
input state's value plus exactly one, while a supervisor turn's delta
has no `iteration_count`, `findings` or `max_iterations` key, so
merging it leaves those fields unchanged — the budget counts
subordinate turns, not supervisor decisions. -/
theorem turn_delta_frame :
    (∀ (s : RState) (n c : String) (ev : List Msg) (r : StatsRec),
      (agent_delta s n c ev r).iteration_count = some (s.iteration_count.getD 0 + 1)) ∧
    (∀ (reply : String) (dec : Option String) (r : StatsRec),
      (supervisor_delta reply dec r).iteration_count = none ∧
      (supervisor_delta reply dec r).findings = none ∧
      (supervisor_delta reply dec r).max_iterations = none) ∧
    (∀ (s : RState) (reply : String) (dec : Option String) (r : StatsRec),
      (apply_delta s (supervisor_delta reply dec r)).iteration_count = s.iteration_count ∧
      (apply_delta s (supervisor_delta reply dec r)).findings = s.findings ∧
      (apply_delta s (supervisor_delta reply dec r)).max_iterations = s.max_iterations) :=
  ⟨fun _ _ _ _ _ => rfl, fun _ _ _ => ⟨rfl, rfl, rfl⟩, fun _ _ _ _ => ⟨rfl, rfl, rfl⟩⟩

/-- C8: `send_request` assigns ids strictly increasing across calls (the
increment is inside the mutex-held critical section, modelled as one
atomic step), never returns a queued response whose id does not match
the request's id, and raises the distinct timeout failure when no
matching response arrives within the bounded wait. -/
theorem send_request_ids_and_matching :
    (∀ (st : ClientState) (m n : Nat), m < n →
      id_assigned_at st m < id_assigned_at st n) ∧
    (∀ (st : ClientState) (method : String) (queued : List MCPResponse) (v : String),
      (send_request st method queued).2.2 = .ok v →
      ∃ r ∈ queued, r.id = some (st.request_id + 1) ∧ v = r.result.getD "") ∧
    (∀ (st : ClientState) (method : String) (queued : List MCPResponse),
      (∀ r ∈ queued, r.id ≠ some (st.request_id + 1)) →
      (send_request st method queued).2.2 = .error (.timeout method)) ∧
    (∀ (method msg : String), MCPFailure.timeout method ≠ MCPFailure.mcpError msg) := by
  refine ⟨fun st m n h => ?_, fun st method queued v h => ?_,
          fun st method queued h => ?_, fun method msg => by simp⟩
  · unfold id_assigned_at
    rw [state_after_sends_request_id, state_after_sends_request_id]
    omega
  · exact poll_ok_means_matching (st.request_id + 1) method queued v h
  · exact poll_no_match_times_out (st.request_id + 1) method queued h

/-- Witness for C8 at concrete client states and queues. -/
theorem send_request_ids_and_matching_witness :
    id_assigned_at ⟨0⟩ 0 < id_assigned_at ⟨0⟩ 2 ∧
    (∃ r ∈ [MCPResponse.mk (some 7) none (some "tools")],
      r.id = some ((6 : Int) + 1) ∧ "tools" = r.result.getD "") ∧
    (send_request ⟨0⟩ "tools/list" [⟨some 5, none, some "x"⟩]).2.2 =
      .error (.timeout "tools/list") :=
  ⟨send_request_ids_and_matching.1 ⟨0⟩ 0 2 (by decide),
   send_request_ids_and_matching.2.1 ⟨6⟩ "tools/call"
     [⟨some 7, none, some "tools"⟩] "tools" rfl,
   send_request_ids_and_matching.2.2.1 ⟨0⟩ "tools/list"
     [⟨some 5, none, some "x"⟩] (by decide)⟩

/-- C6: a supervisor reply from which no valid routing target was
extracted makes the scheduler route to END (termination, not a crash or
retry), and the literal token FINISH anywhere in the reply, with no
other decision extracted, forces the decision `"END"`. -/
theorem ambiguous_decision_terminates (content : List Char) (roles : List String)
    (s : RState) (h : extract_next content roles = none) :
    router { s with supervisor_decision := parse_supervisor_decision content roles } =
      RouteTarget.stop ∧
    (containsSub finish_token (content.map Char.toUpper) = true →
      parse_supervisor_decision content roles = some "END") := by
  have hp : parse_supervisor_decision content roles = some "END" ∨
      parse_supervisor_decision content roles = none := by
    cases hf : containsSub finish_token (content.map Char.toUpper) with
    | true => exact Or.inl (by simp [parse_supervisor_decision, h, hf])
    | false => exact Or.inr (by simp [parse_supervisor_decision, h, hf])
  constructor
  · rcases hp with h1 | h1 <;>
      · unfold router
        simp only [h1]
        split_ifs <;> simp_all
  · intro hf
    simp [parse_supervisor_decision, h, hf]

/-- Witness for C6 at a concrete ambiguous FINISH reply. -/
theorem ambiguous_decision_terminates_witness :
    router { research_question := "q", messages := [], current_agent := none,
             supervisor_decision :=
               parse_supervisor_decision ("Research complete. FINISH".toList) ["analyst"],
             findings := [], iteration_count := some 0, max_iterations := some 15 } =
      RouteTarget.stop ∧
    parse_supervisor_decision ("Research complete. FINISH".toList) ["analyst"] =
      some "END" :=
  ⟨(ambiguous_decision_terminates ("Research complete. FINISH".toList) ["analyst"]
      ⟨"q", [], none, none, [], some 0, some 15⟩ (by decide)).1,
   (ambiguous_decision_terminates ("Research complete. FINISH".toList) ["analyst"]
      ⟨"q", [], none, none, [], some 0, some 15⟩ (by decide)).2 (by decide)⟩

/-- The restored-history filter keeps exactly the log turns whose
speaker attribution is this agent, among the restorable kinds. -/
theorem my_history_go_speaker (agent_name : String) (cur : Option String)
    (msgs : List Msg) :
    my_history_go agent_name (decide (cur = some agent_name)) msgs =
      ((speaker_tags cur msgs).filter fun p =>
        decide (p.2 = some agent_name) && is_restorable p.1).map Prod.fst := by
  induction msgs generalizing cur with
  | nil => rfl
  | cons m t ih =>
    cases m with
    | system c => simpa [my_history_go, speaker_tags, is_restorable] using ih cur
    | human c => simpa [my_history_go, speaker_tags, is_restorable] using ih cur
    | ai c n =>
      by_cases h : n = some agent_name
      · have hd : decide (n = some agent_name) = true := by simp [h]
        have := ih n
        rw [hd] at this
        simp [my_history_go, speaker_tags, is_restorable, h, this]
      · have hd : decide (n = some agent_name) = false := by simp [h]
        have := ih n
        rw [hd] at this
        simp [my_history_go, speaker_tags, is_restorable, h, this]
    | tool c =>
      by_cases h : cur = some agent_name
      · have hd : decide (cur = some agent_name) = true := by simp [h]
        rw [hd]
        simpa [my_history_go, speaker_tags, is_restorable, h, hd] using ih cur
      · have hd : decide (cur = some agent_name) = false := by simp [h]
        rw [hd]
        simpa [my_history_go, speaker_tags, is_restorable, h, hd] using ih cur

/-- C4: the context restored for a role contains no raw turn authored by
a different role — it is exactly the log's assistant and tool turns
whose speaker attribution (own `name` tag, or the nearest preceding
assistant turn for tool results) is that role — and the visible
findings are exactly those whose author key is in the role's declared
dependency list. -/
theorem agent_context_hygiene :
    (∀ (agent_name : String) (msgs : List Msg),
      my_history agent_name msgs =
        ((speaker_tags none msgs).filter fun p =>
          decide (p.2 = some agent_name) && is_restorable p.1).map Prod.fst) ∧
    (∀ (deps : List String) (findings : List (String × String)) (k v : String),
      (k, v) ∈ relevant_findings deps findings ↔ (k, v) ∈ findings ∧ k ∈ deps) := by
  constructor
  · intro agent_name msgs
    have := my_history_go_speaker agent_name none msgs
    have hd : decide ((none : Option String) = some agent_name) = false := by simp
    rw [hd] at this
    exact this
  · intro deps findings k v
    simp [relevant_findings, List.mem_filter]

/-- A segment only ever yields a task whose agent is a known
subordinate role. -/
theorem task_of_segment_agent_known (roles : List String) (seg : List Char) (t : Task)
    (h : task_of_segment roles seg = some t) : t.agent ∈ roles := by
  unfold task_of_segment at h
  cases hc : split_first_colon seg with
  | none =>
    rw [hc] at h
    dsimp only at h
    split_ifs at h with hm
    · cases h
      exact hm
  | some p =>
    obtain ⟨a, b⟩ := p
    rw [hc] at h
    dsimp only at h
    split_ifs at h with hm
    · cases h
      exact hm

/-- C2: the fan-out decision grammar — `"NEXT: researcher_python,
researcher_rust"` parses to decision PARALLEL with one
default-instruction task per named role; an explicit `PARALLEL:` line
keeps each segment's quoted instruction; segments naming unknown roles
are discarded; and every produced task names a role of the known
subordinate set. -/
theorem parallel_decision_grammar :
    (parse_decision ("NEXT: researcher_python, researcher_rust".toList)
        ["researcher_python", "researcher_rust"] =
      { next_agent := some "PARALLEL",
        tasks := [⟨"researcher_python", default_instruction⟩,
                  ⟨"researcher_rust", default_instruction⟩] }) ∧
    (parse_decision
        ("PARALLEL: researcher_python: \"search py\", researcher_rust: \"search rust\"".toList)
        ["researcher_python", "researcher_rust"] =
      { next_agent := some "PARALLEL",
        tasks := [⟨"researcher_python", "search py"⟩,
                  ⟨"researcher_rust", "search rust"⟩] }) ∧
    (parse_decision ("NEXT: researcher_python, researcher_alien".toList)
        ["researcher_python", "researcher_rust"] =
      { next_agent := some "PARALLEL",
        tasks := [⟨"researcher_python", default_instruction⟩] }) ∧
    (∀ (content : List Char) (roles : List String) (t : Task),
      t ∈ (parse_decision content roles).tasks → t.agent ∈ roles) := by
  refine ⟨by decide, by decide, by decide, fun content roles t ht => ?_⟩
  unfold parse_decision at ht
  simp only at ht
  split_ifs at ht with h1 h2
  · simp at ht
  · simp only [List.mem_filterMap] at ht
    obtain ⟨seg, _, hseg⟩ := ht
    exact task_of_segment_agent_known roles seg t hseg
  · simp at ht

/-- Witness for C2's generic membership property at a concrete reply. -/
theorem parallel_decision_grammar_witness :
    (Task.mk "researcher_python" default_instruction).agent ∈
      ["researcher_python", "researcher_rust"] :=
  parallel_decision_grammar.2.2.2
    ("NEXT: researcher_python, researcher_rust".toList)
    ["researcher_python", "researcher_rust"]
    ⟨"researcher_python", default_instruction⟩ (by decide)

/-- When a tag spelling does not occur, block removal is the
identity. -/
theorem remove_blocks_id (f : Nat) (o c s : List Char)
    (h : findSub o s = none) : remove_blocks f o c s = s := by
  cases f with
  | zero => rfl
  | succ k => simp [remove_blocks, h]

/-- An opening tag with no closing tag after it truncates to the text
preceding the opening tag. -/
theorem remove_blocks_unterminated (f : Nat) (o c s : List Char) (i : Nat)
    (ho : findSub o s = some i)
    (hc : findSub c (s.drop (i + o.length)) = none) :
    remove_blocks (f + 1) o c s = s.take i := by
  simp [remove_blocks, ho, hc]

/-- C5: reasoning delimiters are stripped before a finding is stored —
a text with no reasoning tags is stored unchanged,
`"<think>t</think>Answer"` is stored as `"Answer"`, and an unterminated
`"<think>"` truncates the stored text to what precedes the opening
tag. -/
theorem reasoning_pruning (s : List Char) (i : Nat) :
    (findSub ("<thinking>".toList) s = none →
     findSub ("<think>".toList) s = none →
     findSub ("[thought]".toList) s = none →
     prune_reasoning s = s) ∧
    (prune_reasoning ("<think>t</think>Answer".toList) = "Answer".toList) ∧
    (findSub ("<thinking>".toList) s = none →
     findSub ("<think>".toList) s = some i →
     findSub ("</think>".toList) (s.drop (i + 7)) = none →
     findSub ("[thought]".toList) (s.take i) = none →
     prune_reasoning s = s.take i) := by
  refine ⟨fun h1 h2 h3 => ?_, by decide, fun h1 h2 h3 h4 => ?_⟩
  · unfold prune_reasoning reasoning_tags
    simp only [List.foldl]
    rw [remove_blocks_id _ _ _ _ h1, remove_blocks_id _ _ _ _ h2,
      remove_blocks_id _ _ _ _ h3]
  · unfold prune_reasoning reasoning_tags
    simp only [List.foldl]
    rw [remove_blocks_id _ _ _ _ h1]
    rw [remove_blocks_unterminated s.length _ _ _ i h2
      (by simpa using h3)]
    exact remove_blocks_id _ _ _ _ h4

/-- Witness for C5: the identity case and the unterminated-truncation
case at the concrete inputs of the spec. -/
theorem reasoning_pruning_witness :
    prune_reasoning ("Just a normal response.".toList) =
      "Just a normal response.".toList ∧
    prune_reasoning ("Fact 1. <think>I am thinking about Fact 2...".toList) =
      ("Fact 1. <think>I am thinking about Fact 2...".toList).take 8 :=
  ⟨(reasoning_pruning ("Just a normal response.".toList) 0).1
      (by decide) (by decide) (by decide),
   (reasoning_pruning ("Fact 1. <think>I am thinking about Fact 2...".toList) 8).2.2
      (by decide) (by decide) (by decide) (by decide)⟩

end Flexi
